import Mathlib

/-!
A shallow embedding of `social_robotics_reward/reward_function.py`
(class `RewardFunction`, in particular the generator `RewardFunction.gen`),
together with proofs about the stream-merging / windowing / reward
aggregation algorithm.

Modelling conventions:
* Python floats are modelled as rationals (`ℚ`).  The only float value that
  is not a rational is NaN, which can arise in the reward computation when a
  classifier row lacks one of the coefficient labels (pandas inserts NaN for
  a missing cell).  A float that may be NaN is modelled as `Option ℚ`, with
  `none` standing for NaN.
* A pandas `DataFrame` built from a list of dicts is modelled as a list of
  rows, each row an association list `List (String × ℚ)` (the dict produced
  by a classifier).  Its column set is the union of the rows' key sets, and
  the frame is "empty" when it has no rows or no columns, exactly as
  `DataFrame.empty` is true when either axis has length 0.
* The two emotion classifiers are external collaborators; they are
  parameters of the development: `ac` maps an audio payload to one row
  (`EmotionRecognizer.predict_proba`), `vc` maps a video payload to one row
  per detected face (`RMN.detect_emotion_for_single_frame`, with each face's
  `proba_list` already merged into a single dict as in line 87 of the
  source).
* The two frame generators are modelled as finite lists of frames, consumed
  from the front; `next()` on an exhausted generator corresponds to the
  empty list.  A Python generator run is modelled as the list of yielded
  `RewardSignal`s together with how the run ended: `GenResult.done` for
  clean termination (the `except StopIteration: return` at lines 135-137),
  `GenResult.failed` when an exception propagates to the caller after the
  signals were yielded.
-/

namespace SRR

/-- A timestamped sensor frame (audio or video); the payload is opaque to the
core and is only handed to the corresponding classifier. -/
structure Frame (γ : Type) where
  timestamp_s : ℚ
  data : γ
  deriving DecidableEq, Repr

/-- One classifier output row: a dict from emotion label to probability. -/
abbrev Row := List (String × ℚ)

/-- The key set of a dict (row). -/
def rowKeys (r : Row) : Finset String := r.foldr (fun p s => insert p.1 s) ∅

/-- The column set of a `pd.DataFrame` built from a list of dicts: the union
of the rows' key sets. -/
def dfColumns (rows : List Row) : Finset String :=
  rows.foldr (fun r s => rowKeys r ∪ s) ∅

/-- `DataFrame.empty`: true when the frame has no rows or no columns. -/
def dfEmpty (rows : List Row) : Bool :=
  rows.isEmpty || decide (dfColumns rows = ∅)

/-- Cell lookup in one row: `none` when the key is missing (pandas puts NaN
in that cell). -/
def rowCell (r : Row) (c : String) : Option ℚ :=
  (r.find? (fun p => p.1 == c)).map Prod.snd

/-- Float addition with NaN propagation. -/
def nanAdd : Option ℚ → Option ℚ → Option ℚ
  | some a, some b => some (a + b)
  | _, _ => none

/-- Sum of a list of possibly-NaN floats (`none` = NaN, which poisons the
sum, as NaN does in IEEE arithmetic). -/
def optSum (l : List (Option ℚ)) : Option ℚ := l.foldr nanAdd (some 0)

/-- `(series * df).to_numpy().mean()` of lines 118-119 of the source, for a
DataFrame whose column set equals the key set of `coeffs` (which the source
has validated at this point): the flat mean, over all rows and all
coefficient labels, of coefficient times cell value.  A missing cell is NaN
and makes the mean NaN (`none`). -/
def tableScore (coeffs : Row) (rows : List Row) : Option ℚ :=
  (optSum (rows.flatMap (fun r =>
      coeffs.map (fun p => (rowCell r p.1).map (fun v => p.2 * v))))).map
    (fun s => s / ((rows.length : ℚ) * (coeffs.length : ℚ)))

/-- The output record of `RewardFunction.gen` (dataclass `RewardSignal`,
lines 18-26).  `combined_reward` is a float that may be NaN (`none`);
`audio_reward`/`video_reward` are `Optional[float]`: the outer `Option` is
Python's `None`, the inner one NaN. -/
structure RewardSignal where
  timestamp_s : ℚ
  combined_reward : Option ℚ
  audio_reward : Option (Option ℚ)
  video_reward : Option (Option ℚ)
  detected_audio_emotions : List Row
  detected_video_emotions : List Row
  deriving DecidableEq, Repr

/-- An exception escaping `RewardFunction.gen` to its caller. -/
inductive GenError where
  /-- The `ValueError` of lines 115/117: a non-empty emotion table whose
  column set differs from the expected label set; carries the modality and
  the offending and expected label sets that the message reports. -/
  | labelMismatch (modality : String) (got expected : Finset String)
  /-- The `next()` calls at lines 65-66 sit outside the `try`, so an
  exhausted source during priming raises `StopIteration` out of the
  generator body, which PEP 479 (Python ≥ 3.7) converts to a
  `RuntimeError` at the caller. -/
  | primingStopIteration
  deriving DecidableEq

/-- The observable outcome of one run of the generator: the yielded signals
in order, and whether the run ended cleanly or with an exception. -/
inductive GenResult where
  | done (signals : List RewardSignal)
  | failed (signals : List RewardSignal) (err : GenError)
  deriving DecidableEq

/-- Prepend a yielded signal to the rest of a run. -/
def GenResult.cons (sig : RewardSignal) : GenResult → GenResult
  | .done l => .done (sig :: l)
  | .failed l e => .failed (sig :: l) e

/-- The signals yielded during a run. -/
def GenResult.signals : GenResult → List RewardSignal
  | .done l => l
  | .failed l _ => l

/-- A frame buffer (`video_frames` / `audio_frames` in the source).  The
source keeps plain Python lists, but they are non-empty at every point of
the loop: they start with one primed frame, appends keep them non-empty,
and the retention filter of lines 131-132 always keeps the final element
(see `retainedBuf_toList`).  We therefore store the last element apart, so
that `audio_frames[-1]` / `video_frames[-1]` (line 75, 81) is total. -/
structure Buf (γ : Type) where
  init : List (Frame γ)
  last : Frame γ
  deriving DecidableEq, Repr

/-- The buffer as the Python list it models. -/
def Buf.toList {γ : Type} (b : Buf γ) : List (Frame γ) := b.init ++ [b.last]

/-- `list.append(frame)`. -/
def Buf.push {γ : Type} (b : Buf γ) (f : Frame γ) : Buf γ := ⟨b.toList, f⟩

/-- `list[-1].timestamp_s`. -/
def Buf.lastTs {γ : Type} (b : Buf γ) : ℚ := b.last.timestamp_s

/-- Which stream the merge step advances. -/
inductive PullChoice where
  | audio
  | video
  deriving DecidableEq, Repr

/-- Line 75: `if audio_frames[-1].timestamp_s < video_frames[-1].timestamp_s`
pull audio, else (including ties) pull video. -/
def mergeChoice (videoLastTs audioLastTs : ℚ) : PullChoice :=
  if audioLastTs < videoLastTs then .audio else .video

/-- Lines 83-84: the frames of a buffer with timestamp strictly below the
closing timestamp. -/
def includedFrames {γ : Type} (l : List (Frame γ)) (tcur : ℚ) : List (Frame γ) :=
  l.filter (fun f => decide (f.timestamp_s < tcur))

/-- Lines 131-132: the frames of a buffer with timestamp at or above the
closing timestamp. -/
def retainedFrames {γ : Type} (l : List (Frame γ)) (tcur : ℚ) : List (Frame γ) :=
  l.filter (fun f => decide (f.timestamp_s ≥ tcur))

/-- Lines 100-104: `series_audio_coefficients`. -/
def series_audio_coefficients : Row :=
  [("happy", 1), ("neutral", -(1/10)), ("sad", -1)]

/-- Lines 105-113: `series_video_coefficients`. -/
def series_video_coefficients : Row :=
  [("angry", -1), ("disgust", -1), ("fear", -1), ("happy", 1), ("sad", -1),
   ("surprise", 0), ("neutral", 0)]

/-- Line 98. -/
def wt_audio : ℚ := 1

/-- Line 99. -/
def wt_video : ℚ := 1

/-- `x if x is not None else 0.0` applied to an `Optional[float]`. -/
def orZero (r : Option (Option ℚ)) : Option ℚ := r.getD (some 0)

section Generator

variable {α β : Type}

/-- Lines 86-129: classify the included frames of a closed window, validate
the label sets and assemble the `RewardSignal`, or raise the `ValueError`
of lines 115/117.  `ac` is the audio classifier (one row per frame, line
90), `vc` the video classifier (one row per detected face, lines 87-89). -/
def windowSignal (ac : α → Row) (vc : β → List Row) (tcur : ℚ)
    (included_video : List (Frame β)) (included_audio : List (Frame α)) :
    Except GenError RewardSignal :=
  let video_rows := included_video.flatMap (fun f => vc f.data)
  let audio_rows := included_audio.map (fun f => ac f.data)
  if ¬ dfEmpty audio_rows ∧ dfColumns audio_rows ≠ rowKeys series_audio_coefficients then
    .error (.labelMismatch "audio" (dfColumns audio_rows) (rowKeys series_audio_coefficients))
  else if ¬ dfEmpty video_rows ∧ dfColumns video_rows ≠ rowKeys series_video_coefficients then
    .error (.labelMismatch "video" (dfColumns video_rows) (rowKeys series_video_coefficients))
  else
    let audio_reward : Option (Option ℚ) :=
      if dfEmpty audio_rows then none else some (tableScore series_audio_coefficients audio_rows)
    let video_reward : Option (Option ℚ) :=
      if dfEmpty video_rows then none else some (tableScore series_video_coefficients video_rows)
    let combined_reward : Option ℚ :=
      nanAdd ((orZero audio_reward).map (fun x => wt_audio * x))
             ((orZero video_reward).map (fun x => wt_video * x))
    .ok ⟨tcur, combined_reward, audio_reward, video_reward, audio_rows, video_rows⟩

/-- The outcome of the window check of lines 81-133 after one merge step. -/
inductive WindowStep (α β : Type) where
  | noWindow
  | window (sig : RewardSignal) (vbuf : Buf β) (abuf : Buf α) (tcur : ℚ)
  | windowError (err : GenError)
  deriving DecidableEq

/-- Lines 81-133: compute `timestamp_current`, decide whether the window
closes, and if so produce the signal, the retained buffers and the new
`timestamp_last`.  The source retains with `frame.timestamp_s >=
timestamp_current` over the whole buffer (lines 131-132); since
`timestamp_current` is the minimum of the two last timestamps, the last
element always passes that filter, so filtering `init` and keeping `last`
yields the same list (`retainedBuf_toList`). -/
def checkWindow (ac : α → Row) (vc : β → List Row) (period_s : ℚ)
    (vbuf : Buf β) (abuf : Buf α) (timestamp_last : ℚ) : WindowStep α β :=
  let timestamp_current := min vbuf.lastTs abuf.lastTs
  if timestamp_current - timestamp_last ≥ period_s then
    match windowSignal ac vc timestamp_current
        (includedFrames vbuf.toList timestamp_current)
        (includedFrames abuf.toList timestamp_current) with
    | .error e => .windowError e
    | .ok sig =>
      .window sig
        ⟨retainedFrames vbuf.init timestamp_current, vbuf.last⟩
        ⟨retainedFrames abuf.init timestamp_current, abuf.last⟩
        timestamp_current
  else .noWindow

/-- Lines 81-133 after a pull, with the rest of the loop as the
continuation `k` (applied to the current `timestamp_last` and buffers):
either no window closes and the loop goes round again unchanged, or a
window closes, its signal is yielded and the loop continues from the
retained buffers with `timestamp_last = timestamp_current`, or the label
validation raises and the `ValueError` propagates to the caller (it is not
a `StopIteration`, so the handler at line 135 does not catch it, and the
run ends with no signal for that window). -/
def afterPullK (ac : α → Row) (vc : β → List Row) (period_s : ℚ)
    (k : ℚ → Buf β → Buf α → GenResult)
    (vbuf : Buf β) (abuf : Buf α) (timestamp_last : ℚ) : GenResult :=
  match checkWindow ac vc period_s vbuf abuf timestamp_last with
  | .noWindow => k timestamp_last vbuf abuf
  | .window sig vbuf' abuf' tcur => (k tcur vbuf' abuf').cons sig
  | .windowError e => .failed [] e

/-- The `while True` loop of lines 72-133: pull one frame from the lagging
stream (lines 75-78; an exhausted source raises `StopIteration`, caught at
line 135, ending the run cleanly with nothing more yielded), then check
the window.  Each iteration consumes one frame of one source, so the loop
is structurally recursive on a bound `n` on the total number of frames
left; when `n = 0` both sources are exhausted and whichever stream the
merge step pulls from raises `StopIteration`, so the run ends cleanly,
which is also what each pull branch does on an empty source. -/
def genLoopAux (ac : α → Row) (vc : β → List Row) (period_s : ℚ) :
    (n : Nat) → (vsrc : List (Frame β)) → (asrc : List (Frame α)) →
    Buf β → Buf α → ℚ → vsrc.length + asrc.length ≤ n → GenResult
  | 0, _, _, _, _, _, _ => .done []
  | n + 1, vsrc, asrc, vbuf, abuf, timestamp_last, h =>
    match mergeChoice vbuf.lastTs abuf.lastTs with
    | .audio =>
      match asrc, h with
      | [], _ => .done []
      | f :: asrc', h =>
        afterPullK ac vc period_s
          (fun tl vb ab => genLoopAux ac vc period_s n vsrc asrc' vb ab tl
            (by simp [List.length_cons] at h; omega))
          vbuf (abuf.push f) timestamp_last
    | .video =>
      match vsrc, h with
      | [], _ => .done []
      | f :: vsrc', h =>
        afterPullK ac vc period_s
          (fun tl vb ab => genLoopAux ac vc period_s n vsrc' asrc vb ab tl
            (by simp [List.length_cons] at h; omega))
          (vbuf.push f) abuf timestamp_last

/-- The loop of lines 72-133, started with exactly as much frame budget as
the two sources hold. -/
def genLoop (ac : α → Row) (vc : β → List Row) (period_s : ℚ)
    (vsrc : List (Frame β)) (asrc : List (Frame α))
    (vbuf : Buf β) (abuf : Buf α) (timestamp_last : ℚ) : GenResult :=
  genLoopAux ac vc period_s (vsrc.length + asrc.length) vsrc asrc vbuf abuf
    timestamp_last (Nat.le_refl _)

/-- `RewardFunction.gen` (lines 61-137): prime one frame from each source
(lines 65-66 — these sit outside the `try`, so an empty source here ends
the run with the PEP 479 `RuntimeError`, not cleanly), set `timestamp_last`
to the minimum of the two first timestamps (line 67), then run the loop. -/
def gen (ac : α → Row) (vc : β → List Row) (period_s : ℚ)
    (vsrc : List (Frame β)) (asrc : List (Frame α)) : GenResult :=
  match vsrc with
  | [] => .failed [] .primingStopIteration
  | vf :: vsrc' =>
    match asrc with
    | [] => .failed [] .primingStopIteration
    | af :: asrc' =>
      genLoop ac vc period_s vsrc' asrc' ⟨[], vf⟩ ⟨[], af⟩
        (min vf.timestamp_s af.timestamp_s)

end Generator

instance {ε σ : Type} [DecidableEq ε] [DecidableEq σ] : DecidableEq (Except ε σ)
  | .ok a, .ok b =>
    if h : a = b then .isTrue (by rw [h])
    else .isFalse (by intro hc; cases hc; exact h rfl)
  | .ok _, .error _ => .isFalse (by intro hc; cases hc)
  | .error _, .ok _ => .isFalse (by intro hc; cases hc)
  | .error a, .error b =>
    if h : a = b then .isTrue (by rw [h])
    else .isFalse (by intro hc; cases hc; exact h rfl)

/-! ### Concrete stand-ins for the external collaborators, used on concrete
inputs: classifier stubs with fixed outputs and frames with trivial payload. -/

/-- An audio classifier stub always returning `{happy: 1.0, neutral: 0, sad: 0}`. -/
def happyAudioClassifier : Unit → Row := fun _ => [("happy", 1), ("neutral", 0), ("sad", 0)]

/-- A video classifier stub always detecting one face with
`{happy: 1.0, all others 0}`. -/
def happyVideoClassifier : Unit → List Row := fun _ =>
  [[("angry", 0), ("disgust", 0), ("fear", 0), ("happy", 1), ("sad", 0),
    ("surprise", 0), ("neutral", 0)]]

/-- A video classifier stub that detects no face in any frame. -/
def noFaceVideoClassifier : Unit → List Row := fun _ => []

/-- An audio classifier stub returning an unexpected label. -/
def bogusAudioClassifier : Unit → Row := fun _ => [("bogus", 1)]

/-- A frame with trivial payload. -/
def unitFrame (t : ℚ) : Frame Unit := ⟨t, ()⟩

/-! ### Basic lemmas about the embedding -/

theorem GenResult.signals_cons (sig : RewardSignal) (r : GenResult) :
    (r.cons sig).signals = sig :: r.signals := by
  cases r <;> rfl

theorem Buf.lastTs_push {γ : Type} (b : Buf γ) (f : Frame γ) :
    (b.push f).lastTs = f.timestamp_s := rfl

theorem Buf.toList_push {γ : Type} (b : Buf γ) (f : Frame γ) :
    (b.push f).toList = b.toList ++ [f] := rfl

theorem Buf.toList_ne_nil {γ : Type} (b : Buf γ) : b.toList ≠ [] := by
  simp [Buf.toList]

theorem Buf.last_mem_toList {γ : Type} (b : Buf γ) : b.last ∈ b.toList := by
  simp [Buf.toList]

/-- The source retains with `frame.timestamp_s >= timestamp_current` over the
whole buffer list (lines 131-132); because the closing timestamp never
exceeds the last frame's timestamp, keeping `last` and filtering only `init`
is the same list.  This certifies the `Buf`-based retention in
`checkWindow` against the source. -/
theorem retainedBuf_toList {γ : Type} (b : Buf γ) (t : ℚ) (h : t ≤ b.lastTs) :
    (Buf.mk (retainedFrames b.init t) b.last).toList = retainedFrames b.toList t := by
  have hl : decide (b.last.timestamp_s ≥ t) = true := by
    simpa [ge_iff_le] using h
  simp [Buf.toList, retainedFrames, List.filter_append, hl]

theorem genLoopAux_nil {α β : Type} (ac : α → Row) (vc : β → List Row) (period_s : ℚ)
    (m : Nat) (vbuf : Buf β) (abuf : Buf α) (tl : ℚ)
    (h : List.length ([] : List (Frame β)) + List.length ([] : List (Frame α)) ≤ m) :
    genLoopAux ac vc period_s m [] [] vbuf abuf tl h = .done [] := by
  cases m with
  | zero => rfl
  | succ m => cases hc : mergeChoice vbuf.lastTs abuf.lastTs <;> simp [genLoopAux, hc]

theorem afterPullK_congr {α β : Type} {ac : α → Row} {vc : β → List Row} {period_s : ℚ}
    {k₁ k₂ : ℚ → Buf β → Buf α → GenResult} {vbuf : Buf β} {abuf : Buf α} {tl : ℚ}
    (h : ∀ t vb ab, k₁ t vb ab = k₂ t vb ab) :
    afterPullK ac vc period_s k₁ vbuf abuf tl = afterPullK ac vc period_s k₂ vbuf abuf tl := by
  unfold afterPullK
  cases checkWindow ac vc period_s vbuf abuf tl <;> simp [h]

/-- The frame budget of `genLoopAux` does not influence the result, as long
as it covers the frames both sources hold. -/
theorem genLoopAux_irrel {α β : Type} (ac : α → Row) (vc : β → List Row) (period_s : ℚ) :
    ∀ (n m : Nat) (vsrc : List (Frame β)) (asrc : List (Frame α))
      (vbuf : Buf β) (abuf : Buf α) (tl : ℚ)
      (hn : vsrc.length + asrc.length ≤ n) (hm : vsrc.length + asrc.length ≤ m),
      genLoopAux ac vc period_s n vsrc asrc vbuf abuf tl hn =
        genLoopAux ac vc period_s m vsrc asrc vbuf abuf tl hm := by
  intro n
  induction n with
  | zero =>
    intro m vsrc asrc vbuf abuf tl hn hm
    have hv : vsrc = [] := List.length_eq_zero.mp (by omega)
    have ha : asrc = [] := List.length_eq_zero.mp (by omega)
    subst hv; subst ha
    rw [genLoopAux_nil, genLoopAux_nil]
  | succ n ih =>
    intro m vsrc asrc vbuf abuf tl hn hm
    cases m with
    | zero =>
      have hv : vsrc = [] := List.length_eq_zero.mp (by omega)
      have ha : asrc = [] := List.length_eq_zero.mp (by omega)
      subst hv; subst ha
      rw [genLoopAux_nil, genLoopAux_nil]
    | succ m =>
      cases hc : mergeChoice vbuf.lastTs abuf.lastTs with
      | audio =>
        cases asrc with
        | nil => simp [genLoopAux, hc]
        | cons f asrc' =>
          simp only [genLoopAux, hc]
          exact afterPullK_congr (fun t vb ab => ih m vsrc asrc' vb ab t _ _)
      | video =>
        cases vsrc with
        | nil => simp [genLoopAux, hc]
        | cons f vsrc' =>
          simp only [genLoopAux, hc]
          exact afterPullK_congr (fun t vb ab => ih m vsrc' asrc vb ab t _ _)

/-- `genLoop` satisfies the recurrence of the `while True` loop of lines
72-133 literally: pull one frame from the lagging stream, ending the run
cleanly if that source is exhausted, then process the window check with the
rest of the loop as continuation. -/
theorem genLoop_step {α β : Type} (ac : α → Row) (vc : β → List Row) (period_s : ℚ)
    (vsrc : List (Frame β)) (asrc : List (Frame α))
    (vbuf : Buf β) (abuf : Buf α) (timestamp_last : ℚ) :
    genLoop ac vc period_s vsrc asrc vbuf abuf timestamp_last =
      match mergeChoice vbuf.lastTs abuf.lastTs with
      | .audio =>
        match asrc with
        | [] => .done []
        | f :: asrc' =>
          afterPullK ac vc period_s
            (fun tl vb ab => genLoop ac vc period_s vsrc asrc' vb ab tl)
            vbuf (abuf.push f) timestamp_last
      | .video =>
        match vsrc with
        | [] => .done []
        | f :: vsrc' =>
          afterPullK ac vc period_s
            (fun tl vb ab => genLoop ac vc period_s vsrc' asrc vb ab tl)
            (vbuf.push f) abuf timestamp_last := by
  rcases vsrc with _ | ⟨vf, vsrc'⟩ <;> rcases asrc with _ | ⟨af, asrc'⟩ <;>
    cases hc : mergeChoice vbuf.lastTs abuf.lastTs
  case nil.nil.audio => rfl
  case nil.nil.video => rfl
  case nil.cons.audio =>
    show genLoopAux ac vc period_s (0 + asrc'.length + 1) [] (af :: asrc') vbuf abuf
      timestamp_last (Nat.le_refl _) = _
    simp only [genLoopAux]
    rw [hc]
    rfl
  case nil.cons.video =>
    show genLoopAux ac vc period_s (0 + asrc'.length + 1) [] (af :: asrc') vbuf abuf
      timestamp_last (Nat.le_refl _) = _
    simp only [genLoopAux]
    rw [hc]
  case cons.nil.audio =>
    show genLoopAux ac vc period_s (vsrc'.length + 1) (vf :: vsrc') [] vbuf abuf
      timestamp_last (Nat.le_refl _) = _
    simp only [genLoopAux]
    rw [hc]
  case cons.nil.video =>
    show genLoopAux ac vc period_s (vsrc'.length + 1) (vf :: vsrc') [] vbuf abuf
      timestamp_last (Nat.le_refl _) = _
    simp only [genLoopAux]
    rw [hc]
    rfl
  case cons.cons.audio =>
    show genLoopAux ac vc period_s (vsrc'.length + 1 + asrc'.length + 1)
      (vf :: vsrc') (af :: asrc') vbuf abuf timestamp_last (Nat.le_refl _) = _
    simp only [genLoopAux]
    rw [hc]
    rfl
  case cons.cons.video =>
    show genLoopAux ac vc period_s (vsrc'.length + 1 + asrc'.length + 1)
      (vf :: vsrc') (af :: asrc') vbuf abuf timestamp_last (Nat.le_refl _) = _
    simp only [genLoopAux]
    rw [hc]
    exact afterPullK_congr (fun t vb ab =>
      genLoopAux_irrel ac vc period_s _ _ _ _ vb ab t _ _)

/-- Inversion of `windowSignal`: what a successfully assembled signal
contains. -/
theorem windowSignal_ok {α β : Type} {ac : α → Row} {vc : β → List Row} {t : ℚ}
    {iv : List (Frame β)} {ia : List (Frame α)} {sig : RewardSignal}
    (h : windowSignal ac vc t iv ia = .ok sig) :
    sig.timestamp_s = t ∧
    sig.detected_audio_emotions = ia.map (fun f => ac f.data) ∧
    sig.detected_video_emotions = iv.flatMap (fun f => vc f.data) ∧
    sig.audio_reward = (if dfEmpty (ia.map (fun f => ac f.data)) then none
      else some (tableScore series_audio_coefficients (ia.map (fun f => ac f.data)))) ∧
    sig.video_reward = (if dfEmpty (iv.flatMap (fun f => vc f.data)) then none
      else some (tableScore series_video_coefficients (iv.flatMap (fun f => vc f.data)))) ∧
    sig.combined_reward = nanAdd ((orZero sig.audio_reward).map (fun x => wt_audio * x))
      ((orZero sig.video_reward).map (fun x => wt_video * x)) := by
  simp only [windowSignal] at h
  split at h
  · simp at h
  · split at h
    · simp at h
    · injection h with h
      subst h
      exact ⟨rfl, rfl, rfl, rfl, rfl, rfl⟩

/-- Inversion of `checkWindow`: what holds when a window closes. -/
theorem checkWindow_window {α β : Type} {ac : α → Row} {vc : β → List Row} {period_s : ℚ}
    {vbuf : Buf β} {abuf : Buf α} {tlast : ℚ} {sig : RewardSignal}
    {vb : Buf β} {ab : Buf α} {tc : ℚ}
    (h : checkWindow ac vc period_s vbuf abuf tlast = .window sig vb ab tc) :
    tc = min vbuf.lastTs abuf.lastTs ∧
    min vbuf.lastTs abuf.lastTs - tlast ≥ period_s ∧
    windowSignal ac vc tc (includedFrames vbuf.toList tc)
      (includedFrames abuf.toList tc) = .ok sig ∧
    vb = ⟨retainedFrames vbuf.init tc, vbuf.last⟩ ∧
    ab = ⟨retainedFrames abuf.init tc, abuf.last⟩ := by
  simp only [checkWindow] at h
  split at h
  · split at h
    · simp at h
    · injection h with h1 h2 h3 h4
      subst h1; subst h2; subst h3; subst h4
      refine ⟨rfl, by assumption, by assumption, rfl, rfl⟩
  · simp at h

/-- Inversion of `checkWindow`: a window closes only when the period has
elapsed, and then `checkWindow` is never `noWindow`. -/
theorem checkWindow_noWindow {α β : Type} {ac : α → Row} {vc : β → List Row} {period_s : ℚ}
    {vbuf : Buf β} {abuf : Buf α} {tlast : ℚ}
    (h : checkWindow ac vc period_s vbuf abuf tlast = .noWindow) :
    ¬ (min vbuf.lastTs abuf.lastTs - tlast ≥ period_s) := by
  simp only [checkWindow] at h
  split at h
  · split at h <;> simp at h
  · assumption

/-! ### The reward arithmetic of lines 118-119 -/

/-- The dot product between one row's probability vector and the coefficient
vector — the quantity the specification's "mean over all rows of the dot
product" is built from. -/
def rowDot (coeffs : Row) (r : Row) : ℚ :=
  (coeffs.map (fun p => p.2 * ((rowCell r p.1).getD 0))).sum

theorem key_mem_rowKeys {r : Row} {p : String × ℚ} (h : p ∈ r) : p.1 ∈ rowKeys r := by
  induction r with
  | nil => cases h
  | cons q r ih =>
    rcases List.mem_cons.mp h with h | h
    · subst h; simp [rowKeys]
    · have hr := ih h
      simp only [rowKeys] at hr ⊢
      simp [hr]

theorem rowCell_eq_some {r : Row} {c : String} (h : c ∈ rowKeys r) :
    ∃ v, rowCell r c = some v := by
  induction r with
  | nil => simp [rowKeys] at h
  | cons q r ih =>
    by_cases hq : q.1 = c
    · exact ⟨q.2, by simp [rowCell, List.find?, hq]⟩
    · have h' : c ∈ rowKeys r := by
        simp [rowKeys] at h
        rcases h with h | h
        · exact absurd h.symm hq
        · exact h
      obtain ⟨v, hv⟩ := ih h'
      refine ⟨v, ?_⟩
      simp only [rowCell, List.find?] at hv ⊢
      have : (q.1 == c) = false := by simp [hq]
      rw [this]
      exact hv

theorem nanAdd_assoc (a b c : Option ℚ) :
    nanAdd (nanAdd a b) c = nanAdd a (nanAdd b c) := by
  cases a <;> cases b <;> cases c <;> simp [nanAdd, add_assoc]

theorem nanAdd_zero_left (a : Option ℚ) : nanAdd (some 0) a = a := by
  cases a <;> simp [nanAdd]

theorem optSum_append (l₁ l₂ : List (Option ℚ)) :
    optSum (l₁ ++ l₂) = nanAdd (optSum l₁) (optSum l₂) := by
  induction l₁ with
  | nil => simp [optSum, nanAdd_zero_left]
  | cons x xs ih =>
    simp only [optSum, List.foldr_cons, List.cons_append] at ih ⊢
    rw [ih, nanAdd_assoc]

theorem optSum_cons (x : Option ℚ) (l : List (Option ℚ)) :
    optSum (x :: l) = nanAdd x (optSum l) := rfl

theorem optSum_row_complete (coeffs : Row) (r : Row)
    (h : ∀ p ∈ coeffs, p.1 ∈ rowKeys r) :
    optSum (coeffs.map (fun p => (rowCell r p.1).map (fun v => p.2 * v))) =
      some (rowDot coeffs r) := by
  induction coeffs with
  | nil => simp [optSum, rowDot]
  | cons p ps ih =>
    obtain ⟨v, hv⟩ := rowCell_eq_some (h p (List.mem_cons_self p ps))
    have ihs := ih (fun q hq => h q (List.mem_cons_of_mem p hq))
    rw [List.map_cons, optSum_cons, hv, ihs]
    simp [nanAdd, rowDot, hv]

/-- On a table all of whose rows contain every coefficient label, the score
of lines 118-119 is the sum of the per-row dot products divided by
(number of rows × number of coefficient labels) — the flat mean over all
entries of `series * df`. -/
theorem tableScore_complete (coeffs : Row) (rows : List Row)
    (h : ∀ r ∈ rows, ∀ p ∈ coeffs, p.1 ∈ rowKeys r) :
    tableScore coeffs rows =
      some (((rows.map (rowDot coeffs)).sum) /
        ((rows.length : ℚ) * (coeffs.length : ℚ))) := by
  have hsum : optSum (rows.flatMap (fun r =>
      coeffs.map (fun p => (rowCell r p.1).map (fun v => p.2 * v)))) =
      some ((rows.map (rowDot coeffs)).sum) := by
    induction rows with
    | nil => simp [optSum]
    | cons r rs ih =>
      have h1 := optSum_row_complete coeffs r (h r (List.mem_cons_self r rs))
      have h2 := ih (fun q hq p hp => h q (List.mem_cons_of_mem r hq) p hp)
      simp [List.flatMap_cons, optSum_append, h1, h2, nanAdd]
  unfold tableScore
  rw [hsum]
  rfl

theorem dfColumns_uniform {rows : List Row} {K : Finset String}
    (hne : rows ≠ []) (h : ∀ r ∈ rows, rowKeys r = K) : dfColumns rows = K := by
  induction rows with
  | nil => cases hne rfl
  | cons r rs ih =>
    cases rs with
    | nil => simp [dfColumns, h r (List.mem_cons_self r [])]
    | cons r' rs' =>
      have hr := h r (List.mem_cons_self r (r' :: rs'))
      have hrest : dfColumns (r' :: rs') = K :=
        ih (by simp) (fun q hq => h q (List.mem_cons_of_mem r hq))
      simp only [dfColumns, List.foldr_cons] at hrest ⊢
      rw [hr, hrest, Finset.union_self]

/-! ### Merge-step helpers -/

theorem mergeChoice_eq_audio {vTs aTs : ℚ} (h : aTs < vTs) :
    mergeChoice vTs aTs = .audio := by
  simp [mergeChoice, h]

theorem mergeChoice_eq_video {vTs aTs : ℚ} (h : vTs ≤ aTs) :
    mergeChoice vTs aTs = .video := by
  simp [mergeChoice, not_lt.mpr h]

theorem genLoop_pull_audio {α β : Type} (ac : α → Row) (vc : β → List Row) (period_s : ℚ)
    (vsrc : List (Frame β)) (f : Frame α) (asrc' : List (Frame α))
    (vbuf : Buf β) (abuf : Buf α) (tl : ℚ) (h : abuf.lastTs < vbuf.lastTs) :
    genLoop ac vc period_s vsrc (f :: asrc') vbuf abuf tl =
      afterPullK ac vc period_s
        (fun tl' vb ab => genLoop ac vc period_s vsrc asrc' vb ab tl')
        vbuf (abuf.push f) tl := by
  rw [genLoop_step, mergeChoice_eq_audio h]

theorem genLoop_pull_video {α β : Type} (ac : α → Row) (vc : β → List Row) (period_s : ℚ)
    (f : Frame β) (vsrc' : List (Frame β)) (asrc : List (Frame α))
    (vbuf : Buf β) (abuf : Buf α) (tl : ℚ) (h : vbuf.lastTs ≤ abuf.lastTs) :
    genLoop ac vc period_s (f :: vsrc') asrc vbuf abuf tl =
      afterPullK ac vc period_s
        (fun tl' vb ab => genLoop ac vc period_s vsrc' asrc vb ab tl')
        (vbuf.push f) abuf tl := by
  rw [genLoop_step, mergeChoice_eq_video h]

theorem genLoop_audio_exhausted {α β : Type} (ac : α → Row) (vc : β → List Row) (period_s : ℚ)
    (vsrc : List (Frame β)) (vbuf : Buf β) (abuf : Buf α) (tl : ℚ)
    (h : abuf.lastTs < vbuf.lastTs) :
    genLoop ac vc period_s vsrc [] vbuf abuf tl = .done [] := by
  rw [genLoop_step, mergeChoice_eq_audio h]

theorem genLoop_video_exhausted {α β : Type} (ac : α → Row) (vc : β → List Row) (period_s : ℚ)
    (asrc : List (Frame α)) (vbuf : Buf β) (abuf : Buf α) (tl : ℚ)
    (h : vbuf.lastTs ≤ abuf.lastTs) :
    genLoop ac vc period_s [] asrc vbuf abuf tl = .done [] := by
  rw [genLoop_step, mergeChoice_eq_video h]

/-! ### Claim C5 -/

/-- Claim C5: at every merge step of `RewardFunction.gen`, if the
last-buffered audio frame's timestamp is strictly less than the
last-buffered video frame's timestamp, exactly one audio frame is pulled
and appended to the audio buffer; otherwise — including when the two last
timestamps are exactly equal — exactly one video frame is pulled and
appended to the video buffer, so on a tie it is always the video stream
that advances. -/
theorem C5_merge_tiebreak :
    (∀ vTs aTs : ℚ, mergeChoice vTs aTs = PullChoice.audio ↔ aTs < vTs) ∧
    (∀ vTs aTs : ℚ, mergeChoice vTs aTs = PullChoice.video ↔ vTs ≤ aTs) ∧
    (∀ (α β : Type) (ac : α → Row) (vc : β → List Row) (period_s : ℚ)
       (vsrc : List (Frame β)) (f : Frame α) (asrc' : List (Frame α))
       (vbuf : Buf β) (abuf : Buf α) (tl : ℚ),
       abuf.lastTs < vbuf.lastTs →
       genLoop ac vc period_s vsrc (f :: asrc') vbuf abuf tl =
         afterPullK ac vc period_s
           (fun tl' vb ab => genLoop ac vc period_s vsrc asrc' vb ab tl')
           vbuf (abuf.push f) tl) ∧
    (∀ (α β : Type) (ac : α → Row) (vc : β → List Row) (period_s : ℚ)
       (f : Frame β) (vsrc' : List (Frame β)) (asrc : List (Frame α))
       (vbuf : Buf β) (abuf : Buf α) (tl : ℚ),
       vbuf.lastTs ≤ abuf.lastTs →
       genLoop ac vc period_s (f :: vsrc') asrc vbuf abuf tl =
         afterPullK ac vc period_s
           (fun tl' vb ab => genLoop ac vc period_s vsrc' asrc vb ab tl')
           (vbuf.push f) abuf tl) := by
  refine ⟨?_, ?_, ?_, ?_⟩
  · intro vTs aTs
    by_cases h : aTs < vTs <;> simp [mergeChoice, h]
  · intro vTs aTs
    by_cases h : aTs < vTs
    · simp [mergeChoice, h, not_le.mpr h]
    · simp [mergeChoice, h, not_lt.mp h]
  · intro α β ac vc period_s vsrc f asrc' vbuf abuf tl h
    exact genLoop_pull_audio ac vc period_s vsrc f asrc' vbuf abuf tl h
  · intro α β ac vc period_s f vsrc' asrc vbuf abuf tl h
    exact genLoop_pull_video ac vc period_s f vsrc' asrc vbuf abuf tl h

theorem C5_merge_tiebreak_witness :
    mergeChoice (3 : ℚ) 3 = PullChoice.video ∧
    genLoop happyAudioClassifier happyVideoClassifier 1 [unitFrame 5] []
        (Buf.mk [] (unitFrame 3)) (Buf.mk [] (unitFrame 3)) 0 =
      afterPullK happyAudioClassifier happyVideoClassifier 1
        (fun tl' vb ab => genLoop happyAudioClassifier happyVideoClassifier 1 [] [] vb ab tl')
        ((Buf.mk [] (unitFrame 3)).push (unitFrame 5)) (Buf.mk [] (unitFrame 3)) 0 := by
  constructor
  · exact (C5_merge_tiebreak.2.1 3 3).mpr le_rfl
  · exact C5_merge_tiebreak.2.2.2 Unit Unit happyAudioClassifier happyVideoClassifier 1
      (unitFrame 5) [] [] (Buf.mk [] (unitFrame 3)) (Buf.mk [] (unitFrame 3)) 0
      (by with_unfolding_all decide)

/-! ### Claim C3 -/

/-- Claim C3: exhaustion of either source during an in-loop pull ends the
produced sequence immediately, with no further values, no error, and any
partially-filled window discarded (last two conjuncts, for arbitrary buffer
contents).  However, the priming pulls of lines 65-66 sit outside the
`try`/`except StopIteration`, so a source that is exhausted at the very
first pull makes the generator raise (PEP 479 converts the escaping
`StopIteration` into a `RuntimeError` visible to the caller) instead of
ending cleanly — the first two conjuncts, contradicting the claim's
"including the initial priming pull". -/
theorem C3_exhaustion :
    (∀ (α β : Type) (ac : α → Row) (vc : β → List Row) (p : ℚ) (asrc : List (Frame α)),
      gen ac vc p ([] : List (Frame β)) asrc = .failed [] .primingStopIteration) ∧
    (∀ (α β : Type) (ac : α → Row) (vc : β → List Row) (p : ℚ)
       (vf : Frame β) (vsrc' : List (Frame β)),
      gen ac vc p (vf :: vsrc') ([] : List (Frame α)) = .failed [] .primingStopIteration) ∧
    (∀ (α β : Type) (ac : α → Row) (vc : β → List Row) (p : ℚ)
       (vsrc : List (Frame β)) (vbuf : Buf β) (abuf : Buf α) (tl : ℚ),
      abuf.lastTs < vbuf.lastTs →
      genLoop ac vc p vsrc ([] : List (Frame α)) vbuf abuf tl = .done []) ∧
    (∀ (α β : Type) (ac : α → Row) (vc : β → List Row) (p : ℚ)
       (asrc : List (Frame α)) (vbuf : Buf β) (abuf : Buf α) (tl : ℚ),
      vbuf.lastTs ≤ abuf.lastTs →
      genLoop ac vc p ([] : List (Frame β)) asrc vbuf abuf tl = .done []) := by
  refine ⟨?_, ?_, ?_, ?_⟩
  · intro α β ac vc p asrc
    rfl
  · intro α β ac vc p vf vsrc'
    rfl
  · intro α β ac vc p vsrc vbuf abuf tl h
    exact genLoop_audio_exhausted ac vc p vsrc vbuf abuf tl h
  · intro α β ac vc p asrc vbuf abuf tl h
    exact genLoop_video_exhausted ac vc p asrc vbuf abuf tl h

theorem C3_exhaustion_witness :
    gen happyAudioClassifier happyVideoClassifier 1 ([] : List (Frame Unit))
        [unitFrame 0] = .failed [] .primingStopIteration ∧
    genLoop happyAudioClassifier happyVideoClassifier 1 [unitFrame 5]
        ([] : List (Frame Unit)) (Buf.mk [] (unitFrame 3)) (Buf.mk [] (unitFrame 2)) 0 =
      .done [] := by
  constructor
  · exact C3_exhaustion.1 Unit Unit happyAudioClassifier happyVideoClassifier 1 [unitFrame 0]
  · exact C3_exhaustion.2.2.1 Unit Unit happyAudioClassifier happyVideoClassifier 1
      [unitFrame 5] (Buf.mk [] (unitFrame 3)) (Buf.mk [] (unitFrame 2)) 0
      (by with_unfolding_all decide)

/-! ### Claim C6 -/

/-- Claim C6: when a window closes at `timestamp_current`, the frames handed
to the emotion-aggregation step are exactly the buffered frames with
timestamp strictly below `timestamp_current`; each buffer is then replaced
by exactly its frames with timestamp at or above `timestamp_current`, the
loop resumes with `timestamp_last = timestamp_current`, and no frame
belongs to both the included and the retained part. -/
theorem C6_window_partition :
    ∀ (α β : Type) (ac : α → Row) (vc : β → List Row) (period_s : ℚ)
      (vbuf : Buf β) (abuf : Buf α) (tlast : ℚ) (sig : RewardSignal)
      (vb : Buf β) (ab : Buf α) (tc : ℚ) (k : ℚ → Buf β → Buf α → GenResult),
      checkWindow ac vc period_s vbuf abuf tlast = .window sig vb ab tc →
      tc = min vbuf.lastTs abuf.lastTs ∧
      windowSignal ac vc tc (includedFrames vbuf.toList tc)
        (includedFrames abuf.toList tc) = .ok sig ∧
      vb.toList = retainedFrames vbuf.toList tc ∧
      ab.toList = retainedFrames abuf.toList tc ∧
      afterPullK ac vc period_s k vbuf abuf tlast = (k tc vb ab).cons sig ∧
      (∀ f ∈ includedFrames vbuf.toList tc, f ∉ retainedFrames vbuf.toList tc) ∧
      (∀ f ∈ includedFrames abuf.toList tc, f ∉ retainedFrames abuf.toList tc) := by
  intro α β ac vc period_s vbuf abuf tlast sig vb ab tc k h
  obtain ⟨htc, _, hsig, hvb, hab⟩ := checkWindow_window h
  have hvle : tc ≤ vbuf.lastTs := htc ▸ min_le_left _ _
  have hale : tc ≤ abuf.lastTs := htc ▸ min_le_right _ _
  refine ⟨htc, hsig, ?_, ?_, ?_, ?_, ?_⟩
  · rw [hvb]; exact retainedBuf_toList vbuf tc hvle
  · rw [hab]; exact retainedBuf_toList abuf tc hale
  · unfold afterPullK; rw [h]
  · intro f hf hr
    simp only [includedFrames, List.mem_filter, decide_eq_true_eq] at hf
    simp only [retainedFrames, List.mem_filter, decide_eq_true_eq, ge_iff_le] at hr
    exact absurd hr.2 (not_le.mpr hf.2)
  · intro f hf hr
    simp only [includedFrames, List.mem_filter, decide_eq_true_eq] at hf
    simp only [retainedFrames, List.mem_filter, decide_eq_true_eq, ge_iff_le] at hr
    exact absurd hr.2 (not_le.mpr hf.2)

theorem C6_window_partition_witness :
    (1 : ℚ) = min (Buf.mk [unitFrame 0] (unitFrame 1)).lastTs
      (Buf.mk [unitFrame 0] (unitFrame 1)).lastTs ∧
    windowSignal happyAudioClassifier happyVideoClassifier 1
        (includedFrames (Buf.mk [unitFrame 0] (unitFrame 1)).toList 1)
        (includedFrames (Buf.mk [unitFrame 0] (unitFrame 1)).toList 1) =
      .ok ⟨1, some (10/21), some (some (1/3)), some (some (1/7)),
        [[("happy", 1), ("neutral", 0), ("sad", 0)]],
        [[("angry", 0), ("disgust", 0), ("fear", 0), ("happy", 1), ("sad", 0),
          ("surprise", 0), ("neutral", 0)]]⟩ ∧
    (Buf.mk ([] : List (Frame Unit)) (unitFrame 1)).toList =
      retainedFrames (Buf.mk [unitFrame 0] (unitFrame 1)).toList 1 ∧
    (Buf.mk ([] : List (Frame Unit)) (unitFrame 1)).toList =
      retainedFrames (Buf.mk [unitFrame 0] (unitFrame 1)).toList 1 ∧
    afterPullK happyAudioClassifier happyVideoClassifier 1
        (fun _ _ _ => GenResult.done []) (Buf.mk [unitFrame 0] (unitFrame 1))
        (Buf.mk [unitFrame 0] (unitFrame 1)) 0 =
      (GenResult.done []).cons ⟨1, some (10/21), some (some (1/3)), some (some (1/7)),
        [[("happy", 1), ("neutral", 0), ("sad", 0)]],
        [[("angry", 0), ("disgust", 0), ("fear", 0), ("happy", 1), ("sad", 0),
          ("surprise", 0), ("neutral", 0)]]⟩ ∧
    (∀ f ∈ includedFrames (Buf.mk [unitFrame 0] (unitFrame 1)).toList 1,
      f ∉ retainedFrames (Buf.mk [unitFrame 0] (unitFrame 1)).toList 1) ∧
    (∀ f ∈ includedFrames (Buf.mk [unitFrame 0] (unitFrame 1)).toList 1,
      f ∉ retainedFrames (Buf.mk [unitFrame 0] (unitFrame 1)).toList 1) :=
  C6_window_partition Unit Unit happyAudioClassifier happyVideoClassifier 1
    (Buf.mk [unitFrame 0] (unitFrame 1)) (Buf.mk [unitFrame 0] (unitFrame 1)) 0
    ⟨1, some (10/21), some (some (1/3)), some (some (1/7)),
      [[("happy", 1), ("neutral", 0), ("sad", 0)]],
      [[("angry", 0), ("disgust", 0), ("fear", 0), ("happy", 1), ("sad", 0),
        ("surprise", 0), ("neutral", 0)]]⟩
    (Buf.mk [] (unitFrame 1)) (Buf.mk [] (unitFrame 1)) 1
    (fun _ _ _ => GenResult.done [])
    (by with_unfolding_all decide)

/-! ### Claim C8 -/

/-- Claim C8: if, for a closed window, a modality's emotion table is
non-empty and its column set differs from that modality's expected label
set, `RewardFunction.gen` raises the `ValueError` of lines 115/117, which
carries the offending and the expected label sets; the error propagates
(it is not caught by the `except StopIteration`), the whole run fails, and
no `RewardSignal` is produced for that window (signals of earlier windows
having already been yielded). -/
theorem C8_label_validation :
    (∀ (α β : Type) (ac : α → Row) (vc : β → List Row) (p : ℚ)
       (vbuf : Buf β) (abuf : Buf α) (tlast : ℚ) (arows : List Row),
      arows = (includedFrames abuf.toList (min vbuf.lastTs abuf.lastTs)).map
        (fun f => ac f.data) →
      min vbuf.lastTs abuf.lastTs - tlast ≥ p →
      ¬ dfEmpty arows →
      dfColumns arows ≠ rowKeys series_audio_coefficients →
      checkWindow ac vc p vbuf abuf tlast =
        .windowError (.labelMismatch "audio" (dfColumns arows)
          (rowKeys series_audio_coefficients))) ∧
    (∀ (α β : Type) (ac : α → Row) (vc : β → List Row) (p : ℚ)
       (vbuf : Buf β) (abuf : Buf α) (tlast : ℚ) (arows vrows : List Row),
      arows = (includedFrames abuf.toList (min vbuf.lastTs abuf.lastTs)).map
        (fun f => ac f.data) →
      vrows = (includedFrames vbuf.toList (min vbuf.lastTs abuf.lastTs)).flatMap
        (fun f => vc f.data) →
      min vbuf.lastTs abuf.lastTs - tlast ≥ p →
      (dfEmpty arows ∨ dfColumns arows = rowKeys series_audio_coefficients) →
      ¬ dfEmpty vrows →
      dfColumns vrows ≠ rowKeys series_video_coefficients →
      checkWindow ac vc p vbuf abuf tlast =
        .windowError (.labelMismatch "video" (dfColumns vrows)
          (rowKeys series_video_coefficients))) ∧
    (∀ (α β : Type) (ac : α → Row) (vc : β → List Row) (p : ℚ)
       (k : ℚ → Buf β → Buf α → GenResult)
       (vbuf : Buf β) (abuf : Buf α) (tlast : ℚ) (e : GenError),
      checkWindow ac vc p vbuf abuf tlast = .windowError e →
      afterPullK ac vc p k vbuf abuf tlast = .failed [] e) ∧
    (∀ (sig : RewardSignal) (l : List RewardSignal) (e : GenError),
      GenResult.cons sig (.failed l e) = .failed (sig :: l) e) := by
  refine ⟨?_, ?_, ?_, ?_⟩
  · intro α β ac vc p vbuf abuf tlast arows harows hclose hne hcols
    subst harows
    simp only [checkWindow, windowSignal]
    rw [if_pos hclose, if_pos ⟨hne, hcols⟩]
  · intro α β ac vc p vbuf abuf tlast arows vrows harows hvrows hclose haudio hne hcols
    subst harows; subst hvrows
    simp only [checkWindow, windowSignal]
    rw [if_pos hclose, if_neg (by tauto), if_pos ⟨hne, hcols⟩]
  · intro α β ac vc p k vbuf abuf tlast e h
    unfold afterPullK
    rw [h]
  · intro sig l e
    rfl

theorem C8_label_validation_witness :
    checkWindow bogusAudioClassifier happyVideoClassifier 1
        (Buf.mk [unitFrame 0] (unitFrame 1)) (Buf.mk [unitFrame 0] (unitFrame 1)) 0 =
      .windowError (.labelMismatch "audio" (dfColumns [[("bogus", 1)]])
        (rowKeys series_audio_coefficients)) ∧
    afterPullK bogusAudioClassifier happyVideoClassifier 1
        (fun _ _ _ => GenResult.done []) (Buf.mk [unitFrame 0] (unitFrame 1))
        (Buf.mk [unitFrame 0] (unitFrame 1)) 0 =
      .failed [] (.labelMismatch "audio" (dfColumns [[("bogus", 1)]])
        (rowKeys series_audio_coefficients)) := by
  have h1 := C8_label_validation.1 Unit Unit bogusAudioClassifier happyVideoClassifier 1
    (Buf.mk [unitFrame 0] (unitFrame 1)) (Buf.mk [unitFrame 0] (unitFrame 1)) 0
    [[("bogus", 1)]] (by with_unfolding_all decide) (by with_unfolding_all decide)
    (by with_unfolding_all decide) (by with_unfolding_all decide)
  exact ⟨h1, C8_label_validation.2.2.1 Unit Unit bogusAudioClassifier happyVideoClassifier 1
    (fun _ _ _ => GenResult.done []) (Buf.mk [unitFrame 0] (unitFrame 1))
    (Buf.mk [unitFrame 0] (unitFrame 1)) 0 _ h1⟩

theorem rowKeys_ne_empty {r : Row} (h : r ≠ []) : rowKeys r ≠ (∅ : Finset String) := by
  cases r with
  | nil => exact absurd rfl h
  | cons p r => simp [rowKeys]

/-! ### Claim C1 -/

/-- Claim C1 (corrected): for every closed window, an empty emotion table
makes that modality's reward absent; a non-empty table all of whose rows
carry exactly the expected label set yields the reward
`(sum of per-row dot products) / (number of rows * number of labels)` —
the flat mean over all entries of `series * df`, i.e. the spec's mean of
row dot products divided additionally by the label count (3 for audio,
7 for video). -/
theorem C1_reward_mean (α β : Type) (ac : α → Row) (vc : β → List Row) (period_s : ℚ)
    (vbuf : Buf β) (abuf : Buf α) (tlast : ℚ) (sig : RewardSignal)
    (vb : Buf β) (ab : Buf α) (tc : ℚ)
    (h : checkWindow ac vc period_s vbuf abuf tlast = .window sig vb ab tc) :
    (dfEmpty sig.detected_audio_emotions → sig.audio_reward = none) ∧
    (dfEmpty sig.detected_video_emotions → sig.video_reward = none) ∧
    (sig.detected_audio_emotions ≠ [] →
      (∀ r ∈ sig.detected_audio_emotions, rowKeys r = rowKeys series_audio_coefficients) →
      sig.audio_reward = some (some
        ((sig.detected_audio_emotions.map (rowDot series_audio_coefficients)).sum /
          ((sig.detected_audio_emotions.length : ℚ) * 3)))) ∧
    (sig.detected_video_emotions ≠ [] →
      (∀ r ∈ sig.detected_video_emotions, rowKeys r = rowKeys series_video_coefficients) →
      sig.video_reward = some (some
        ((sig.detected_video_emotions.map (rowDot series_video_coefficients)).sum /
          ((sig.detected_video_emotions.length : ℚ) * 7)))) := by
  obtain ⟨-, -, hsig, -, -⟩ := checkWindow_window h
  obtain ⟨-, hda, hdv, har, hvr, -⟩ := windowSignal_ok hsig
  rw [← hda] at har
  rw [← hdv] at hvr
  refine ⟨?_, ?_, ?_, ?_⟩
  · intro he
    rw [har, if_pos he]
  · intro he
    rw [hvr, if_pos he]
  · intro hne huni
    have hKa : dfColumns sig.detected_audio_emotions = rowKeys series_audio_coefficients :=
      dfColumns_uniform hne huni
    have hKne : rowKeys series_audio_coefficients ≠ (∅ : Finset String) := by
      with_unfolding_all decide
    have hemp : ¬ (dfEmpty sig.detected_audio_emotions = true) := by
      cases hrows : sig.detected_audio_emotions with
      | nil => exact absurd hrows hne
      | cons r rs =>
        rw [hrows] at hKa
        simp [dfEmpty, hKa, hKne]
    rw [har, if_neg hemp, tableScore_complete _ _
      (fun r hr p hp => (huni r hr) ▸ key_mem_rowKeys hp)]
    have h3 : ((series_audio_coefficients.length : ℚ)) = 3 := by
      norm_num [series_audio_coefficients]
    rw [h3]
  · intro hne huni
    have hKv : dfColumns sig.detected_video_emotions = rowKeys series_video_coefficients :=
      dfColumns_uniform hne huni
    have hKne : rowKeys series_video_coefficients ≠ (∅ : Finset String) := by
      with_unfolding_all decide
    have hemp : ¬ (dfEmpty sig.detected_video_emotions = true) := by
      cases hrows : sig.detected_video_emotions with
      | nil => exact absurd hrows hne
      | cons r rs =>
        rw [hrows] at hKv
        simp [dfEmpty, hKv, hKne]
    rw [hvr, if_neg hemp, tableScore_complete _ _
      (fun r hr p hp => (huni r hr) ▸ key_mem_rowKeys hp)]
    have h7 : ((series_video_coefficients.length : ℚ)) = 7 := by
      norm_num [series_video_coefficients]
    rw [h7]

/-- Claim C1, counterexample to the claim as stated: an emitted window whose
audio table is the single row `{happy: 1.0, neutral: 0, sad: 0}` (column
set equal to the expected set).  The spec's value — the mean over rows of
the dot product — is `1.0`, but the code computes `1/3` (the flat mean also
averages over the three columns). -/
theorem C1_counterexample :
    (gen happyAudioClassifier noFaceVideoClassifier 1
        [unitFrame 0, unitFrame 1] [unitFrame 0, unitFrame 1]).signals.map
      (fun s => (s.audio_reward, s.detected_audio_emotions)) =
      [(some (some (1/3)), [[("happy", 1), ("neutral", 0), ("sad", 0)]])] ∧
    ([[("happy", (1:ℚ)), ("neutral", 0), ("sad", 0)]].map
        (rowDot series_audio_coefficients)).sum /
      (([[("happy", (1:ℚ)), ("neutral", 0), ("sad", 0)]] : List Row).length : ℚ) = 1 ∧
    ¬ ((1 : ℚ)/3 = 1) := by
  refine ⟨?_, ?_, ?_⟩ <;> with_unfolding_all decide

theorem C1_reward_mean_witness :
    (⟨1, some (10/21), some (some (1/3)), some (some (1/7)),
      [[("happy", 1), ("neutral", 0), ("sad", 0)]],
      [[("angry", 0), ("disgust", 0), ("fear", 0), ("happy", 1), ("sad", 0),
        ("surprise", 0), ("neutral", 0)]]⟩ : RewardSignal).audio_reward =
      some (some
        ((([[("happy", (1:ℚ)), ("neutral", 0), ("sad", 0)]] : List Row).map
            (rowDot series_audio_coefficients)).sum /
          ((([[("happy", (1:ℚ)), ("neutral", 0), ("sad", 0)]] : List Row).length : ℚ) * 3))) ∧
    (⟨1, some (10/21), some (some (1/3)), some (some (1/7)),
      [[("happy", 1), ("neutral", 0), ("sad", 0)]],
      [[("angry", 0), ("disgust", 0), ("fear", 0), ("happy", 1), ("sad", 0),
        ("surprise", 0), ("neutral", 0)]]⟩ : RewardSignal).video_reward =
      some (some
        ((([[("angry", (0:ℚ)), ("disgust", 0), ("fear", 0), ("happy", 1), ("sad", 0),
            ("surprise", 0), ("neutral", 0)]] : List Row).map
            (rowDot series_video_coefficients)).sum /
          ((([[("angry", (0:ℚ)), ("disgust", 0), ("fear", 0), ("happy", 1), ("sad", 0),
            ("surprise", 0), ("neutral", 0)]] : List Row).length : ℚ) * 7))) := by
  have h := C1_reward_mean Unit Unit happyAudioClassifier happyVideoClassifier 1
    (Buf.mk [unitFrame 0] (unitFrame 1)) (Buf.mk [unitFrame 0] (unitFrame 1)) 0
    ⟨1, some (10/21), some (some (1/3)), some (some (1/7)),
      [[("happy", 1), ("neutral", 0), ("sad", 0)]],
      [[("angry", 0), ("disgust", 0), ("fear", 0), ("happy", 1), ("sad", 0),
        ("surprise", 0), ("neutral", 0)]]⟩
    (Buf.mk [] (unitFrame 1)) (Buf.mk [] (unitFrame 1)) 1
    (by with_unfolding_all decide)
  exact ⟨h.2.2.1 (by simp) (by with_unfolding_all decide),
         h.2.2.2 (by simp) (by with_unfolding_all decide)⟩

/-! ### Claim C2 -/

/-- Claim C2 (corrected): for every emitted `RewardSignal`, the combined
reward is `wt_audio * (audio_reward or 0) + wt_video * (video_reward or 0)`
with both weights `1.0`; a modality's reward is absent exactly when that
modality's emotion table is empty — for audio that happens exactly when no
audio frame fell strictly inside the window, but for video also when the
included video frames yielded no face rows — and when one modality's reward
is absent the combined reward equals the other modality's reward. -/
theorem C2_combined_reward (α β : Type) (ac : α → Row) (vc : β → List Row) (period_s : ℚ)
    (vbuf : Buf β) (abuf : Buf α) (tlast : ℚ) (sig : RewardSignal)
    (vb : Buf β) (ab : Buf α) (tc : ℚ)
    (h : checkWindow ac vc period_s vbuf abuf tlast = .window sig vb ab tc) :
    sig.combined_reward = nanAdd ((orZero sig.audio_reward).map (fun x => wt_audio * x))
      ((orZero sig.video_reward).map (fun x => wt_video * x)) ∧
    (sig.audio_reward = none ↔ dfEmpty sig.detected_audio_emotions = true) ∧
    (sig.video_reward = none ↔ dfEmpty sig.detected_video_emotions = true) ∧
    (includedFrames abuf.toList tc = [] → sig.audio_reward = none) ∧
    (includedFrames vbuf.toList tc = [] → sig.video_reward = none) ∧
    ((∀ a : α, ac a ≠ []) →
      (sig.audio_reward = none ↔ includedFrames abuf.toList tc = [])) ∧
    (∀ x, sig.video_reward = none → sig.audio_reward = some x → sig.combined_reward = x) ∧
    (∀ x, sig.audio_reward = none → sig.video_reward = some x → sig.combined_reward = x) := by
  obtain ⟨-, -, hsig, -, -⟩ := checkWindow_window h
  obtain ⟨-, hda, hdv, har, hvr, hcr⟩ := windowSignal_ok hsig
  have hiffa : sig.audio_reward = none ↔
      dfEmpty sig.detected_audio_emotions = true := by
    rw [← hda] at har
    cases he : dfEmpty sig.detected_audio_emotions <;> simp [har, he]
  refine ⟨hcr, hiffa, ?_, ?_, ?_, ?_, ?_, ?_⟩
  · rw [← hdv] at hvr
    cases he : dfEmpty sig.detected_video_emotions <;> simp [hvr, he]
  · intro he
    rw [har, he]
    simp [dfEmpty]
  · intro he
    rw [hvr, he]
    simp [dfEmpty]
  · intro hac
    rw [hiffa, hda]
    cases hin : includedFrames abuf.toList tc with
    | nil => simp [dfEmpty]
    | cons f fs =>
      simp only [List.map_cons]
      constructor
      · intro he
        exfalso
        have hcols : dfColumns (ac f.data :: fs.map (fun g => ac g.data)) ≠ ∅ := by
          simp only [dfColumns, List.foldr_cons]
          intro hcon
          exact rowKeys_ne_empty (hac f.data) (Finset.union_eq_empty.mp hcon).1
        simp [dfEmpty, hcols] at he
      · intro he
        exact absurd he (List.cons_ne_nil f fs)
  · intro x hv ha
    rw [hcr, hv, ha]
    cases x <;> simp [orZero, nanAdd, wt_audio, wt_video]
  · intro x ha hv
    rw [hcr, hv, ha]
    cases x <;> simp [orZero, nanAdd, wt_audio, wt_video]

/-- Claim C2, counterexample to the claim as stated: with a video classifier
that detects no face, the single emitted window contains the video frame at
t = 0 (strictly inside the window closing at t = 1), yet `video_reward` is
absent — absence is decided by the emptiness of the emotion table, not by
the presence of frames of that modality. -/
theorem C2_counterexample :
    (gen happyAudioClassifier noFaceVideoClassifier 1
        [unitFrame 0, unitFrame 1] [unitFrame 0, unitFrame 1]).signals.map
      (fun s => (s.timestamp_s, s.video_reward)) = [((1 : ℚ), none)] ∧
    includedFrames [unitFrame 0, unitFrame 1] (1 : ℚ) = [unitFrame 0] := by
  constructor <;> with_unfolding_all decide

theorem C2_combined_reward_witness :
    (⟨1, some (1/3), some (some (1/3)), none,
        [[("happy", 1), ("neutral", 0), ("sad", 0)]], []⟩ : RewardSignal).combined_reward =
      nanAdd ((orZero (⟨1, some (1/3), some (some (1/3)), none,
          [[("happy", 1), ("neutral", 0), ("sad", 0)]], []⟩ : RewardSignal).audio_reward).map
          (fun x => wt_audio * x))
        ((orZero (⟨1, some (1/3), some (some (1/3)), none,
          [[("happy", 1), ("neutral", 0), ("sad", 0)]], []⟩ : RewardSignal).video_reward).map
          (fun x => wt_video * x)) ∧
    (⟨1, some (1/3), some (some (1/3)), none,
        [[("happy", 1), ("neutral", 0), ("sad", 0)]], []⟩ : RewardSignal).combined_reward =
      some (1/3) := by
  have h := C2_combined_reward Unit Unit happyAudioClassifier noFaceVideoClassifier 1
    (Buf.mk [unitFrame 0] (unitFrame 1)) (Buf.mk [unitFrame 0] (unitFrame 1)) 0
    ⟨1, some (1/3), some (some (1/3)), none,
      [[("happy", 1), ("neutral", 0), ("sad", 0)]], []⟩
    (Buf.mk [] (unitFrame 1)) (Buf.mk [] (unitFrame 1)) 1
    (by with_unfolding_all decide)
  exact ⟨h.1, h.2.2.2.2.2.2.1 (some (1/3)) rfl rfl⟩

/-! ### Claim C4 -/

/-- Claim C4 (corrected): for video frames at t = 0, 0.2, 0.4, 0.6 with the
always-happy video classifier, audio frames at t = 0, 0.5 with the
always-happy audio classifier and `period_s = 0.5`, the run emits exactly
one signal: the window closes at t = 0.5, its audio table holds one row
(the audio frame at 0) and its video table three rows (the video frames at
0, 0.2, 0.4), and the rewards are `audio_reward = 1/3`,
`video_reward = 1/7`, `combined_reward = 10/21` (the code averages over the
label columns as well, so the spec's values 1.0/1.0/2.0 are not
produced). -/
theorem C4_scenario :
    gen happyAudioClassifier happyVideoClassifier (1/2)
        [unitFrame 0, unitFrame (1/5), unitFrame (2/5), unitFrame (3/5)]
        [unitFrame 0, unitFrame (1/2)] =
      .done [⟨1/2, some (10/21), some (some (1/3)), some (some (1/7)),
        [[("happy", 1), ("neutral", 0), ("sad", 0)]],
        [[("angry", 0), ("disgust", 0), ("fear", 0), ("happy", 1), ("sad", 0),
          ("surprise", 0), ("neutral", 0)],
         [("angry", 0), ("disgust", 0), ("fear", 0), ("happy", 1), ("sad", 0),
          ("surprise", 0), ("neutral", 0)],
         [("angry", 0), ("disgust", 0), ("fear", 0), ("happy", 1), ("sad", 0),
          ("surprise", 0), ("neutral", 0)]]⟩] := by
  with_unfolding_all decide

/-- Claim C4, counterexample to the claim as stated: in the spec's scenario
the first window does close at t = 0.5 with the stated frames, but the
rewards are 1/3, 1/7 and 10/21, not 1.0, 1.0 and 2.0. -/
theorem C4_counterexample :
    (gen happyAudioClassifier happyVideoClassifier (1/2)
        [unitFrame 0, unitFrame (1/5), unitFrame (2/5), unitFrame (3/5)]
        [unitFrame 0, unitFrame (1/2)]).signals.map
      (fun s => (s.timestamp_s, s.audio_reward, s.video_reward, s.combined_reward)) =
      [((1/2 : ℚ), some (some (1/3)), some (some (1/7)), some (10/21))] ∧
    ¬ ((1 : ℚ)/3 = 1) ∧ ¬ ((1 : ℚ)/7 = 1) ∧ ¬ ((10 : ℚ)/21 = 2) := by
  refine ⟨?_, ?_, ?_, ?_⟩ <;> with_unfolding_all decide

/-! ### Claim C7 -/

/-- Starting from reference time `t`, each signal comes at least `period_s`
after the previous one. -/
def gapsOK (period_s : ℚ) : ℚ → List RewardSignal → Prop
  | _, [] => True
  | t, s :: rest => t + period_s ≤ s.timestamp_s ∧ gapsOK period_s s.timestamp_s rest

theorem afterPullK_gapsOK {α β : Type} (ac : α → Row) (vc : β → List Row) (period_s : ℚ)
    (k : ℚ → Buf β → Buf α → GenResult) (vbuf : Buf β) (abuf : Buf α) (tl : ℚ)
    (hk : ∀ t vb ab, gapsOK period_s t (k t vb ab).signals) :
    gapsOK period_s tl (afterPullK ac vc period_s k vbuf abuf tl).signals := by
  unfold afterPullK
  cases hcw : checkWindow ac vc period_s vbuf abuf tl with
  | noWindow => exact hk tl vbuf abuf
  | window sig vb ab tc =>
    rw [GenResult.signals_cons]
    obtain ⟨htc, hge, hsig, -, -⟩ := checkWindow_window hcw
    obtain ⟨hts, -, -, -, -, -⟩ := windowSignal_ok hsig
    refine ⟨?_, ?_⟩
    · rw [hts, htc]
      linarith [hge]
    · rw [hts]
      exact hk tc vb ab
  | windowError e => exact trivial

theorem genLoopAux_gapsOK {α β : Type} (ac : α → Row) (vc : β → List Row) (period_s : ℚ) :
    ∀ (n : Nat) (vsrc : List (Frame β)) (asrc : List (Frame α))
      (vbuf : Buf β) (abuf : Buf α) (tl : ℚ) (h : vsrc.length + asrc.length ≤ n),
      gapsOK period_s tl (genLoopAux ac vc period_s n vsrc asrc vbuf abuf tl h).signals := by
  intro n
  induction n with
  | zero => intro vsrc asrc vbuf abuf tl h; exact trivial
  | succ n ih =>
    intro vsrc asrc vbuf abuf tl h
    cases hc : mergeChoice vbuf.lastTs abuf.lastTs with
    | audio =>
      cases asrc with
      | nil => simp only [genLoopAux, hc]; exact trivial
      | cons f asrc' =>
        simp only [genLoopAux, hc]
        exact afterPullK_gapsOK ac vc period_s _ vbuf (abuf.push f) tl
          (fun t vb ab => ih vsrc asrc' vb ab t _)
    | video =>
      cases vsrc with
      | nil => simp only [genLoopAux, hc]; exact trivial
      | cons f vsrc' =>
        simp only [genLoopAux, hc]
        exact afterPullK_gapsOK ac vc period_s _ (vbuf.push f) abuf tl
          (fun t vb ab => ih vsrc' asrc vb ab t _)

theorem gapsOK_chain {period_s : ℚ} :
    ∀ {t : ℚ} {l : List RewardSignal}, gapsOK period_s t l →
      List.Chain' (fun a b => a.timestamp_s + period_s ≤ b.timestamp_s) l := by
  intro t l
  induction l generalizing t with
  | nil => intro _; exact List.chain'_nil
  | cons s rest ih =>
    intro hgap
    cases rest with
    | nil => simp
    | cons s2 rest2 =>
      rw [List.chain'_cons]
      exact ⟨hgap.2.1, ih hgap.2⟩

/-- Claim C7 (corrected): for any two finite sources and any `period_s`,
consecutive emitted timestamps are at least `period_s` apart; they are
strictly increasing whenever `period_s > 0` (for `period_s ≤ 0` windows can
close repeatedly at one timestamp, see the counterexample). -/
theorem C7_signal_spacing :
    (∀ (α β : Type) (ac : α → Row) (vc : β → List Row) (period_s : ℚ)
       (vsrc : List (Frame β)) (asrc : List (Frame α)),
      List.Chain' (fun a b => a.timestamp_s + period_s ≤ b.timestamp_s)
        (gen ac vc period_s vsrc asrc).signals) ∧
    (∀ (α β : Type) (ac : α → Row) (vc : β → List Row) (period_s : ℚ)
       (vsrc : List (Frame β)) (asrc : List (Frame α)),
      0 < period_s →
      List.Chain' (fun a b => a.timestamp_s < b.timestamp_s)
        (gen ac vc period_s vsrc asrc).signals) := by
  have hgap : ∀ (α β : Type) (ac : α → Row) (vc : β → List Row) (period_s : ℚ)
      (vsrc : List (Frame β)) (asrc : List (Frame α)),
      List.Chain' (fun a b => a.timestamp_s + period_s ≤ b.timestamp_s)
        (gen ac vc period_s vsrc asrc).signals := by
    intro α β ac vc period_s vsrc asrc
    cases vsrc with
    | nil => exact List.chain'_nil
    | cons vf vsrc' =>
      cases asrc with
      | nil => exact List.chain'_nil
      | cons af asrc' =>
        exact gapsOK_chain (genLoopAux_gapsOK ac vc period_s _ vsrc' asrc'
          (Buf.mk [] vf) (Buf.mk [] af) (min vf.timestamp_s af.timestamp_s) _)
  refine ⟨hgap, ?_⟩
  intro α β ac vc period_s vsrc asrc hp
  exact (hgap α β ac vc period_s vsrc asrc).imp (fun a b hab => by linarith)

/-- Claim C7, counterexample to the claim as stated: with `period_s = 0`
(and non-decreasing sources) two consecutive signals carry the same
timestamp, so the emitted timestamps are not strictly increasing. -/
theorem C7_counterexample :
    (gen happyAudioClassifier happyVideoClassifier 0
        [unitFrame 0, unitFrame 0, unitFrame 0] [unitFrame 0]).signals.map
      (fun s => s.timestamp_s) = [0, 0] ∧
    ¬ ((0 : ℚ) < 0) := by
  constructor <;> with_unfolding_all decide

theorem C7_signal_spacing_witness :
    List.Chain' (fun a b => a.timestamp_s < b.timestamp_s)
      (gen happyAudioClassifier happyVideoClassifier 1
        [unitFrame 0, unitFrame 1, unitFrame 2]
        [unitFrame 0, unitFrame 1, unitFrame 2]).signals :=
  C7_signal_spacing.2 Unit Unit happyAudioClassifier happyVideoClassifier 1
    [unitFrame 0, unitFrame 1, unitFrame 2] [unitFrame 0, unitFrame 1, unitFrame 2]
    (by norm_num)

/-! ### Claim C9 -/

/-- Timestamps never decrease along one source's sequence. -/
def NonDecreasing {γ : Type} (l : List (Frame γ)) : Prop :=
  l.Pairwise (fun f g => f.timestamp_s ≤ g.timestamp_s)

/-- The loop invariant of claim C9: the last element of each (non-empty by
construction) buffer carries that buffer's maximum timestamp, every frame
still to be pulled is no earlier than the corresponding buffer's last
frame, the remaining sources are non-decreasing, and `timestamp_last` is at
most the minimum of the two last-buffered timestamps. -/
def MergeInv {α β : Type} (vsrc : List (Frame β)) (asrc : List (Frame α))
    (vbuf : Buf β) (abuf : Buf α) (tlast : ℚ) : Prop :=
  (∀ f ∈ vbuf.toList, f.timestamp_s ≤ vbuf.lastTs) ∧
  (∀ f ∈ abuf.toList, f.timestamp_s ≤ abuf.lastTs) ∧
  (∀ f ∈ vsrc, vbuf.lastTs ≤ f.timestamp_s) ∧
  (∀ f ∈ asrc, abuf.lastTs ≤ f.timestamp_s) ∧
  NonDecreasing vsrc ∧ NonDecreasing asrc ∧
  tlast ≤ min vbuf.lastTs abuf.lastTs

theorem mem_push_toList {γ : Type} {b : Buf γ} {g f : Frame γ} :
    f ∈ (b.push g).toList ↔ f ∈ b.toList ∨ f = g := by
  rw [Buf.toList_push, List.mem_append, List.mem_singleton]

/-- Claim C9: the loop invariant of `RewardFunction.gen` under sources with
non-decreasing timestamps — it holds after priming (conjunct 1), is
preserved by an audio or video pull (conjuncts 2-3), and across a window
closure, where additionally the emitted window `[timestamp_last,
timestamp_current)` has width at least `period_s`, every retained frame
lies at or after the new `timestamp_last`, and both retained buffers are
non-empty (conjunct 4). -/
theorem C9_loop_invariant :
    (∀ (α β : Type) (vf : Frame β) (vsrc' : List (Frame β))
       (af : Frame α) (asrc' : List (Frame α)),
      NonDecreasing (vf :: vsrc') → NonDecreasing (af :: asrc') →
      MergeInv vsrc' asrc' (Buf.mk [] vf) (Buf.mk [] af)
        (min vf.timestamp_s af.timestamp_s)) ∧
    (∀ (α β : Type) (vsrc : List (Frame β)) (f : Frame α) (asrc' : List (Frame α))
       (vbuf : Buf β) (abuf : Buf α) (tlast : ℚ),
      MergeInv vsrc (f :: asrc') vbuf abuf tlast →
      MergeInv vsrc asrc' vbuf (abuf.push f) tlast) ∧
    (∀ (α β : Type) (f : Frame β) (vsrc' : List (Frame β)) (asrc : List (Frame α))
       (vbuf : Buf β) (abuf : Buf α) (tlast : ℚ),
      MergeInv (f :: vsrc') asrc vbuf abuf tlast →
      MergeInv vsrc' asrc (vbuf.push f) abuf tlast) ∧
    (∀ (α β : Type) (ac : α → Row) (vc : β → List Row) (period_s : ℚ)
       (vsrc : List (Frame β)) (asrc : List (Frame α))
       (vbuf : Buf β) (abuf : Buf α) (tlast : ℚ) (sig : RewardSignal)
       (vb : Buf β) (ab : Buf α) (tc : ℚ),
      MergeInv vsrc asrc vbuf abuf tlast →
      checkWindow ac vc period_s vbuf abuf tlast = .window sig vb ab tc →
      MergeInv vsrc asrc vb ab tc ∧
      period_s ≤ sig.timestamp_s - tlast ∧ sig.timestamp_s = tc ∧
      (∀ f ∈ vb.toList, tc ≤ f.timestamp_s) ∧
      (∀ f ∈ ab.toList, tc ≤ f.timestamp_s) ∧
      vb.toList ≠ [] ∧ ab.toList ≠ []) := by
  refine ⟨?_, ?_, ?_, ?_⟩
  · intro α β vf vsrc' af asrc' hv ha
    obtain ⟨hv1, hv2⟩ := List.pairwise_cons.mp hv
    obtain ⟨ha1, ha2⟩ := List.pairwise_cons.mp ha
    refine ⟨?_, ?_, ?_, ?_, hv2, ha2, le_refl _⟩
    · intro f hf
      simp only [Buf.toList, List.nil_append, List.mem_singleton] at hf
      subst hf
      exact le_refl _
    · intro f hf
      simp only [Buf.toList, List.nil_append, List.mem_singleton] at hf
      subst hf
      exact le_refl _
    · exact hv1
    · exact ha1
  · intro α β vsrc f asrc' vbuf abuf tlast hinv
    obtain ⟨hvmax, hamax, hvsrc, hasrc, hvnd, hand, htl⟩ := hinv
    have hfle : abuf.lastTs ≤ f.timestamp_s := hasrc f (List.mem_cons_self f asrc')
    obtain ⟨ha1, ha2⟩ := List.pairwise_cons.mp hand
    refine ⟨hvmax, ?_, hvsrc, ?_, hvnd, ha2, ?_⟩
    · intro g hg
      rcases mem_push_toList.mp hg with hg | hg
      · exact le_trans (hamax g hg) (by rw [Buf.lastTs_push]; exact hfle)
      · subst hg
        rw [Buf.lastTs_push]
    · intro g hg
      rw [Buf.lastTs_push]
      exact ha1 g hg
    · rw [Buf.lastTs_push]
      exact le_min (le_trans htl (min_le_left _ _))
        (le_trans (le_trans htl (min_le_right _ _)) hfle)
  · intro α β f vsrc' asrc vbuf abuf tlast hinv
    obtain ⟨hvmax, hamax, hvsrc, hasrc, hvnd, hand, htl⟩ := hinv
    have hfle : vbuf.lastTs ≤ f.timestamp_s := hvsrc f (List.mem_cons_self f vsrc')
    obtain ⟨hv1, hv2⟩ := List.pairwise_cons.mp hvnd
    refine ⟨?_, hamax, ?_, hasrc, hv2, hand, ?_⟩
    · intro g hg
      rcases mem_push_toList.mp hg with hg | hg
      · exact le_trans (hvmax g hg) (by rw [Buf.lastTs_push]; exact hfle)
      · subst hg
        rw [Buf.lastTs_push]
    · intro g hg
      rw [Buf.lastTs_push]
      exact hv1 g hg
    · rw [Buf.lastTs_push]
      exact le_min (le_trans (le_trans htl (min_le_left _ _)) hfle)
        (le_trans htl (min_le_right _ _))
  · intro α β ac vc period_s vsrc asrc vbuf abuf tlast sig vb ab tc hinv h
    obtain ⟨hvmax, hamax, hvsrc, hasrc, hvnd, hand, htl⟩ := hinv
    obtain ⟨htc, hge, hsig, hvb, hab⟩ := checkWindow_window h
    obtain ⟨hts, -, -, -, -, -⟩ := windowSignal_ok hsig
    have hvle : tc ≤ vbuf.lastTs := htc ▸ min_le_left _ _
    have hale : tc ≤ abuf.lastTs := htc ▸ min_le_right _ _
    have hvbl : vb.toList = retainedFrames vbuf.toList tc := by
      rw [hvb]; exact retainedBuf_toList vbuf tc hvle
    have habl : ab.toList = retainedFrames abuf.toList tc := by
      rw [hab]; exact retainedBuf_toList abuf tc hale
    have hvlast : vb.lastTs = vbuf.lastTs := by rw [hvb]; simp [Buf.lastTs]
    have halast : ab.lastTs = abuf.lastTs := by rw [hab]; simp [Buf.lastTs]
    have hvmem : ∀ f ∈ vb.toList, f ∈ vbuf.toList ∧ tc ≤ f.timestamp_s := by
      intro f hf
      rw [hvbl] at hf
      simp only [retainedFrames, List.mem_filter, decide_eq_true_eq, ge_iff_le] at hf
      exact hf
    have hamem : ∀ f ∈ ab.toList, f ∈ abuf.toList ∧ tc ≤ f.timestamp_s := by
      intro f hf
      rw [habl] at hf
      simp only [retainedFrames, List.mem_filter, decide_eq_true_eq, ge_iff_le] at hf
      exact hf
    refine ⟨⟨?_, ?_, ?_, ?_, hvnd, hand, ?_⟩, ?_, ?_, ?_, ?_, ?_, ?_⟩
    · intro f hf
      rw [hvlast]
      exact hvmax f (hvmem f hf).1
    · intro f hf
      rw [halast]
      exact hamax f (hamem f hf).1
    · intro f hf
      rw [hvlast]
      exact hvsrc f hf
    · intro f hf
      rw [halast]
      exact hasrc f hf
    · rw [hvlast, halast, ← htc]
    · rw [hts, htc]
      linarith [hge]
    · rw [hts]
    · intro f hf
      exact (hvmem f hf).2
    · intro f hf
      exact (hamem f hf).2
    · exact Buf.toList_ne_nil vb
    · exact Buf.toList_ne_nil ab

theorem C9_loop_invariant_witness :
    MergeInv [unitFrame 1] [unitFrame 2] (Buf.mk [] (unitFrame 0))
      (Buf.mk [] (unitFrame 0)) (min (unitFrame 0).timestamp_s (unitFrame 0).timestamp_s) ∧
    MergeInv ([] : List (Frame Unit)) ([] : List (Frame Unit))
      (Buf.mk [] (unitFrame 0)) ((Buf.mk [] (unitFrame 0)).push (unitFrame 2)) 0 ∧
    (MergeInv ([] : List (Frame Unit)) ([] : List (Frame Unit))
        (Buf.mk [] (unitFrame 1)) (Buf.mk [] (unitFrame 1)) 1 ∧
      (1 : ℚ) ≤ (⟨1, some (10/21), some (some (1/3)), some (some (1/7)),
        [[("happy", 1), ("neutral", 0), ("sad", 0)]],
        [[("angry", 0), ("disgust", 0), ("fear", 0), ("happy", 1), ("sad", 0),
          ("surprise", 0), ("neutral", 0)]]⟩ : RewardSignal).timestamp_s - 0 ∧
      (⟨1, some (10/21), some (some (1/3)), some (some (1/7)),
        [[("happy", 1), ("neutral", 0), ("sad", 0)]],
        [[("angry", 0), ("disgust", 0), ("fear", 0), ("happy", 1), ("sad", 0),
          ("surprise", 0), ("neutral", 0)]]⟩ : RewardSignal).timestamp_s = 1 ∧
      (∀ f ∈ (Buf.mk ([] : List (Frame Unit)) (unitFrame 1)).toList, (1:ℚ) ≤ f.timestamp_s) ∧
      (∀ f ∈ (Buf.mk ([] : List (Frame Unit)) (unitFrame 1)).toList, (1:ℚ) ≤ f.timestamp_s) ∧
      (Buf.mk ([] : List (Frame Unit)) (unitFrame 1)).toList ≠ [] ∧
      (Buf.mk ([] : List (Frame Unit)) (unitFrame 1)).toList ≠ []) := by
  refine ⟨?_, ?_, ?_⟩
  · exact C9_loop_invariant.1 Unit Unit (unitFrame 0) [unitFrame 1] (unitFrame 0) [unitFrame 2]
      (by unfold NonDecreasing; with_unfolding_all decide)
      (by unfold NonDecreasing; with_unfolding_all decide)
  · exact C9_loop_invariant.2.1 Unit Unit [] (unitFrame 2) []
      (Buf.mk [] (unitFrame 0)) (Buf.mk [] (unitFrame 0)) 0
      (by unfold MergeInv NonDecreasing; with_unfolding_all decide)
  · exact C9_loop_invariant.2.2.2 Unit Unit happyAudioClassifier happyVideoClassifier 1
      [] [] (Buf.mk [unitFrame 0] (unitFrame 1)) (Buf.mk [unitFrame 0] (unitFrame 1)) 0
      ⟨1, some (10/21), some (some (1/3)), some (some (1/7)),
        [[("happy", 1), ("neutral", 0), ("sad", 0)]],
        [[("angry", 0), ("disgust", 0), ("fear", 0), ("happy", 1), ("sad", 0),
          ("surprise", 0), ("neutral", 0)]]⟩
      (Buf.mk [] (unitFrame 1)) (Buf.mk [] (unitFrame 1)) 1
      (by unfold MergeInv NonDecreasing; with_unfolding_all decide)
      (by with_unfolding_all decide)

/-! ### Claim C10 -/

/-- Some buffered frame lies at or before `timestamp_last`. -/
def HasEarlyFrame {α β : Type} (vbuf : Buf β) (abuf : Buf α) (tlast : ℚ) : Prop :=
  (∃ f ∈ vbuf.toList, f.timestamp_s ≤ tlast) ∨
  (∃ f ∈ abuf.toList, f.timestamp_s ≤ tlast)

/-- Claim C10: after priming, some buffered frame lies at or before
`timestamp_last` (conjunct 1); pulls preserve this (conjuncts 2-3); at any
window closure from such a state with `period_s > 0`, at least one
modality's included-frame set is non-empty and the property carries over to
the retained buffers with the new `timestamp_last` (conjunct 4); with
`period_s ≤ 0` it fails: a concrete window closes with both included sets
empty (conjunct 5). -/
theorem C10_no_empty_window :
    (∀ (α β : Type) (vf : Frame β) (af : Frame α),
      HasEarlyFrame (Buf.mk [] vf) (Buf.mk [] af)
        (min vf.timestamp_s af.timestamp_s)) ∧
    (∀ (α β : Type) (vbuf : Buf β) (abuf : Buf α) (tlast : ℚ) (f : Frame α),
      HasEarlyFrame vbuf abuf tlast → HasEarlyFrame vbuf (abuf.push f) tlast) ∧
    (∀ (α β : Type) (vbuf : Buf β) (abuf : Buf α) (tlast : ℚ) (f : Frame β),
      HasEarlyFrame vbuf abuf tlast → HasEarlyFrame (vbuf.push f) abuf tlast) ∧
    (∀ (α β : Type) (ac : α → Row) (vc : β → List Row) (period_s : ℚ)
       (vbuf : Buf β) (abuf : Buf α) (tlast : ℚ) (sig : RewardSignal)
       (vb : Buf β) (ab : Buf α) (tc : ℚ),
      HasEarlyFrame vbuf abuf tlast → 0 < period_s →
      checkWindow ac vc period_s vbuf abuf tlast = .window sig vb ab tc →
      (includedFrames vbuf.toList tc ≠ [] ∨ includedFrames abuf.toList tc ≠ []) ∧
      HasEarlyFrame vb ab tc) ∧
    (checkWindow happyAudioClassifier happyVideoClassifier 0
        (Buf.mk [] (unitFrame 0)) (Buf.mk [] (unitFrame 0)) 0 =
      .window ⟨0, some 0, none, none, [], []⟩
        (Buf.mk [] (unitFrame 0)) (Buf.mk [] (unitFrame 0)) 0 ∧
      includedFrames (Buf.mk ([] : List (Frame Unit)) (unitFrame 0)).toList 0 = []) := by
  refine ⟨?_, ?_, ?_, ?_, ?_⟩
  · intro α β vf af
    rcases le_total vf.timestamp_s af.timestamp_s with h | h
    · exact Or.inl ⟨vf, by simp [Buf.toList], le_min (le_refl _) h⟩
    · exact Or.inr ⟨af, by simp [Buf.toList], le_min h (le_refl _)⟩
  · intro α β vbuf abuf tlast f h
    rcases h with ⟨g, hg, hgle⟩ | ⟨g, hg, hgle⟩
    · exact Or.inl ⟨g, hg, hgle⟩
    · exact Or.inr ⟨g, mem_push_toList.mpr (Or.inl hg), hgle⟩
  · intro α β vbuf abuf tlast f h
    rcases h with ⟨g, hg, hgle⟩ | ⟨g, hg, hgle⟩
    · exact Or.inl ⟨g, mem_push_toList.mpr (Or.inl hg), hgle⟩
    · exact Or.inr ⟨g, hg, hgle⟩
  · intro α β ac vc period_s vbuf abuf tlast sig vb ab tc hearly hp h
    obtain ⟨htc, hge, hsig, hvb, hab⟩ := checkWindow_window h
    have htlt : tlast < tc := by
      rw [htc]; linarith [hge]
    constructor
    · rcases hearly with ⟨g, hg, hgle⟩ | ⟨g, hg, hgle⟩
      · have hmem : g ∈ includedFrames vbuf.toList tc := by
          simp only [includedFrames, List.mem_filter, decide_eq_true_eq]
          exact ⟨hg, lt_of_le_of_lt hgle htlt⟩
        exact Or.inl (List.ne_nil_of_mem hmem)
      · have hmem : g ∈ includedFrames abuf.toList tc := by
          simp only [includedFrames, List.mem_filter, decide_eq_true_eq]
          exact ⟨hg, lt_of_le_of_lt hgle htlt⟩
        exact Or.inr (List.ne_nil_of_mem hmem)
    · rcases le_total vbuf.lastTs abuf.lastTs with hm | hm
      · refine Or.inl ⟨vb.last, Buf.last_mem_toList vb, ?_⟩
        have hlast : vb.last = vbuf.last := by rw [hvb]
        rw [hlast, htc, min_eq_left hm]
        exact le_refl _
      · refine Or.inr ⟨ab.last, Buf.last_mem_toList ab, ?_⟩
        have hlast : ab.last = abuf.last := by rw [hab]
        rw [hlast, htc, min_eq_right hm]
        exact le_refl _
  · constructor <;> with_unfolding_all decide

theorem C10_no_empty_window_witness :
    ((includedFrames (Buf.mk [unitFrame 0] (unitFrame 1)).toList 1 ≠ [] ∨
      includedFrames (Buf.mk [unitFrame 0] (unitFrame 1)).toList 1 ≠ []) ∧
     HasEarlyFrame (Buf.mk ([] : List (Frame Unit)) (unitFrame 1))
       (Buf.mk ([] : List (Frame Unit)) (unitFrame 1)) 1) ∧
    HasEarlyFrame (Buf.mk ([] : List (Frame Unit)) (unitFrame 3))
      (Buf.mk ([] : List (Frame Unit)) (unitFrame 5))
      (min (unitFrame 3).timestamp_s (unitFrame 5).timestamp_s) := by
  constructor
  · exact C10_no_empty_window.2.2.2.1 Unit Unit happyAudioClassifier happyVideoClassifier 1
      (Buf.mk [unitFrame 0] (unitFrame 1)) (Buf.mk [unitFrame 0] (unitFrame 1)) 0
      ⟨1, some (10/21), some (some (1/3)), some (some (1/7)),
        [[("happy", 1), ("neutral", 0), ("sad", 0)]],
        [[("angry", 0), ("disgust", 0), ("fear", 0), ("happy", 1), ("sad", 0),
          ("surprise", 0), ("neutral", 0)]]⟩
      (Buf.mk [] (unitFrame 1)) (Buf.mk [] (unitFrame 1)) 1
      (Or.inl ⟨unitFrame 0, by simp [Buf.toList], by simp [unitFrame]⟩)
      (by norm_num) (by with_unfolding_all decide)
  · exact C10_no_empty_window.1 Unit Unit (unitFrame 3) (unitFrame 5)

end SRR
